import Mathlib

/-!
# Verification of `atomicslice`

A shallow embedding of the `AtomicSlice<T>` data structure from `src/lib.rs`
of the `timstr/atomicslice` crate, together with proofs about its
status-word protocol, construction, read and write paths.

The 64-bit status word layout (comment at the top of `src/lib.rs`):
byte 0 holds the active slice index (only bit 0 may be set), bytes 2–3 hold
slice 1's use count, bytes 5–6 hold slice 2's use count, bytes 1, 4 and 7 are
padding. Machine `u64` arithmetic is modelled as `Nat` arithmetic with an
explicit `% 2 ^ 64` at each wrapping atomic update.
-/

namespace AtomicsliceSpec

/-! ### Bit-manipulation toolkit (general `Nat` facts, shared by the proofs) -/

lemma and_mod_two_pow (a b n : Nat) :
    (a &&& b) % 2 ^ n = (a % 2 ^ n) &&& (b % 2 ^ n) := by
  apply Nat.eq_of_testBit_eq
  intro i
  simp only [Nat.testBit_mod_two_pow, Nat.testBit_and]
  by_cases h : i < n <;> simp [h]

lemma and_div_two_pow (a b n : Nat) :
    (a &&& b) / 2 ^ n = (a / 2 ^ n) &&& (b / 2 ^ n) := by
  apply Nat.eq_of_testBit_eq
  intro i
  simp only [← Nat.shiftRight_eq_div_pow, Nat.testBit_shiftRight, Nat.testBit_and]

lemma xor_mod_two_pow (a b n : Nat) :
    (a ^^^ b) % 2 ^ n = (a % 2 ^ n) ^^^ (b % 2 ^ n) := by
  apply Nat.eq_of_testBit_eq
  intro i
  simp only [Nat.testBit_mod_two_pow, Nat.testBit_xor]
  by_cases h : i < n <;> simp [h]

lemma xor_div_two_pow (a b n : Nat) :
    (a ^^^ b) / 2 ^ n = (a / 2 ^ n) ^^^ (b / 2 ^ n) := by
  apply Nat.eq_of_testBit_eq
  intro i
  simp only [← Nat.shiftRight_eq_div_pow, Nat.testBit_shiftRight, Nat.testBit_xor]

/-- XOR with 1 flips exactly the lowest bit. -/
lemma xor_one_eq (s : Nat) : s ^^^ 1 = 2 * (s / 2) + (1 - s % 2) := by
  conv_lhs => rw [← Nat.div_add_mod (s ^^^ 1) 2]
  have hdiv : (s ^^^ 1) / 2 = s / 2 := by
    have h := xor_div_two_pow s 1 1
    rw [pow_one] at h
    rw [show (1 : Nat) / 2 = 0 from rfl, Nat.xor_zero] at h
    exact h
  have hmod : (s ^^^ 1) % 2 = (s % 2) ^^^ 1 := by
    have h := xor_mod_two_pow s 1 1
    rw [pow_one] at h
    exact h
  rw [hdiv, hmod]
  rcases Nat.mod_two_eq_zero_or_one s with h | h <;> rw [h] <;> rfl

/-! ### Status word constants (`src/lib.rs`, `pub mod constants`) -/

def CURRENT_SLICE_MASK : Nat := 0x1

def SLICE_1_INC : Nat := 0x0000000000010000

def SLICE_2_INC : Nat := 0x0000010000000000

def VALID_STATUS_MASK : Nat := 0x00FFFF00FFFF0001

def INC_ALL_SLICES : Nat := SLICE_1_INC ||| SLICE_2_INC

/-- The modulus of wrapping 64-bit arithmetic. -/
def U64_SIZE : Nat := 2 ^ 64

/-! ### Status word decoding (`src/lib.rs` free functions) -/

/-- `fn slice_1_use_count(status: u64) -> u16` -/
def slice_1_use_count (status : Nat) : Nat := (status >>> 16) &&& 0xFFFF

/-- `fn slice_2_use_count(status: u64) -> u16` -/
def slice_2_use_count (status : Nat) : Nat := (status >>> 40) &&& 0xFFFF

/-- `fn slice_use_count(slice: u8, status: u64) -> u16`; the `_ => panic!(...)`
arm of the source `match` is modelled as `none`. -/
def slice_use_count (slice status : Nat) : Option Nat :=
  match slice with
  | 0 => some (slice_1_use_count status)
  | 1 => some (slice_2_use_count status)
  | _ => none

/-- `fn valid_status(status: u64) -> bool`; the source computes
`status & !VALID_STATUS_MASK == 0`, and the `u64` complement
`!VALID_STATUS_MASK` equals `2^64 - 1 - VALID_STATUS_MASK`. -/
def valid_status (status : Nat) : Bool :=
  status &&& (U64_SIZE - 1 - VALID_STATUS_MASK) == 0

/-! ### The data structure (`pub struct AtomicSlice<T>`) -/

/-- `AtomicSlice<T>`: the boxed pool, the stride, the atomic status word
and the writer gate. The pool is a `List α`, the `u64` status a `Nat`. -/
structure AtomicSlice (α : Type) where
  data : List α
  stride : Nat
  status : Nat
  currently_writing : Bool

/-- `AtomicSliceReadGuard<'a, T>`: the borrowed view and the slice index the
lease is bound to. (The source guard also stores a reference to the status
word; in the pure model the state is passed explicitly at release.) -/
structure AtomicSliceReadGuard (α : Type) where
  slice : List α
  current_slice : Nat

/-- The borrowed view `from_raw_parts(ptr_data.add(i * stride), stride)` over
generation `i` of the pool. -/
def AtomicSlice.generation {α : Type} (s : AtomicSlice α) (i : Nat) : List α :=
  (s.data.drop (i * s.stride)).take s.stride

/-- `AtomicSlice::new`: `data.resize(stride * 2, T::default())` appends
`stride` default elements; status starts at 0 and the gate unlocked. -/
def AtomicSlice.new {α : Type} [Inhabited α] (data : List α) : AtomicSlice α :=
  let stride := data.length
  { data := data ++ List.replicate stride default
    stride := stride
    status := 0
    currently_writing := false }

/-- `AtomicSlice::len`. -/
def AtomicSlice.len {α : Type} (s : AtomicSlice α) : Nat := s.stride

/-- The first atomic operation of `AtomicSlice::read`:
`status.fetch_add(INC_ALL_SLICES, SeqCst)` (wrapping), whose result is the
pre-increment snapshot and whose effect is this post-state. -/
def read_acquire_status (status : Nat) : Nat :=
  (status + INC_ALL_SLICES) % U64_SIZE

/-- `AtomicSlice::read`: fetch_add `INC_ALL_SLICES` obtaining the
pre-increment snapshot, decode the current slice from the snapshot,
fetch_sub the other slice's increment, and build the borrowed view. Returns
the guard together with the post-state. -/
def AtomicSlice.read {α : Type} (s : AtomicSlice α) :
    AtomicSliceReadGuard α × AtomicSlice α :=
  let status := s.status
  let s1 : AtomicSlice α := { s with status := read_acquire_status s.status }
  let current_slice := status &&& CURRENT_SLICE_MASK
  let inc_other_slice := if current_slice = 0 then SLICE_2_INC else SLICE_1_INC
  let s2 : AtomicSlice α :=
    { s1 with status := (s1.status + (U64_SIZE - inc_other_slice)) % U64_SIZE }
  (⟨s.generation current_slice, current_slice⟩, s2)

/-- `Drop for AtomicSliceReadGuard`: fetch_sub of the bound slice's
increment (wrapping). -/
def AtomicSliceReadGuard.drop {α : Type} (g : AtomicSliceReadGuard α)
    (s : AtomicSlice α) : AtomicSlice α :=
  let inc_slice := if g.current_slice = 0 then SLICE_1_INC else SLICE_2_INC
  { s with status := (s.status + (U64_SIZE - inc_slice)) % U64_SIZE }

/-- Outcome of `AtomicSlice::write` in the sequential model: `ok` with the
post-state, `lengthPanic` for the length-mismatch `panic!`, and `blocked`
when a spin loop of the source (the writer gate, or the drain of the
inactive slice's use count) would never terminate without other threads. -/
inductive WriteResult (α : Type) where
  | ok (s : AtomicSlice α)
  | lengthPanic
  | blocked

/-- `AtomicSlice::write`: panic on length mismatch; acquire the gate;
read the status; decode the current slice `i` and target `next_i = i ^ 1`;
require the target's use count to be 0 (drain loop); copy `data` into the
target generation element by element; `fetch_xor(1)` to publish; release
the gate. -/
def AtomicSlice.write {α : Type} (s : AtomicSlice α) (data : List α) :
    WriteResult α :=
  let stride := s.stride
  if data.length ≠ stride then
    .lengthPanic
  else if s.currently_writing then
    .blocked
  else
    let s0 : AtomicSlice α := { s with currently_writing := true }
    let status := s0.status
    let i := status &&& CURRENT_SLICE_MASK
    let next_i := i ^^^ 1
    if slice_use_count next_i s0.status ≠ some 0 then
      .blocked
    else
      let offset := next_i * stride
      let newdata :=
        (s0.data.take offset) ++ data ++ (s0.data.drop (offset + stride))
      let s1 : AtomicSlice α := { s0 with data := newdata }
      let s2 : AtomicSlice α := { s1 with status := (s1.status ^^^ 1) % U64_SIZE }
      .ok { s2 with currently_writing := false }

/-- The post-state of a successful `AtomicSlice::write` (used to phrase the
lemmas about `write`): the inactive generation `(status & 1) ^ 1` overwritten
with `xs`, the status XORed with 1, the gate released. -/
def write_post {α : Type} (s : AtomicSlice α) (xs : List α) : AtomicSlice α :=
  let next_i := (s.status &&& CURRENT_SLICE_MASK) ^^^ 1
  let offset := next_i * s.stride
  { data := (s.data.take offset) ++ xs ++ (s.data.drop (offset + s.stride))
    stride := s.stride
    status := (s.status ^^^ 1) % U64_SIZE
    currently_writing := false }

/-- A concrete instance for witnesses: `AtomicSlice::new(vec![3, 4])`. -/
def sEx : AtomicSlice Nat := AtomicSlice.new [3, 4]

/-- The zero-length instance: `AtomicSlice::new(vec![])`. -/
def sEmpty : AtomicSlice Nat := AtomicSlice.new []

/-- The state of `sEx` after one `read` (one outstanding lease on
generation 0), used as a witness state. -/
def sExRead : AtomicSlice Nat := (sEx.read).2

/-! ### Decoding lemmas -/

lemma slice_1_use_count_eq (s : Nat) :
    slice_1_use_count s = s / 2 ^ 16 % 2 ^ 16 := by
  unfold slice_1_use_count
  rw [Nat.shiftRight_eq_div_pow, show (0xFFFF : Nat) = 2 ^ 16 - 1 from rfl,
    Nat.and_pow_two_sub_one_eq_mod]

lemma slice_2_use_count_eq (s : Nat) :
    slice_2_use_count s = s / 2 ^ 40 % 2 ^ 16 := by
  unfold slice_2_use_count
  rw [Nat.shiftRight_eq_div_pow, show (0xFFFF : Nat) = 2 ^ 16 - 1 from rfl,
    Nat.and_pow_two_sub_one_eq_mod]

lemma and_current_slice_mask (s : Nat) : s &&& CURRENT_SLICE_MASK = s % 2 := by
  unfold CURRENT_SLICE_MASK
  exact Nat.and_one_is_mod s

lemma and_fffe (t : Nat) (ht : t < 65536) : t &&& 65534 = 2 * (t / 2) := by
  have hm : (t &&& 65534) % 2 = 0 := by
    have h := and_mod_two_pow t 65534 1
    norm_num at h
    rw [h]
  have hd : (t &&& 65534) / 2 = t / 2 := by
    have h := and_div_two_pow t 65534 1
    norm_num at h
    rw [h, show (32767 : Nat) = 2 ^ 15 - 1 from rfl, Nat.and_pow_two_sub_one_eq_mod]
    exact Nat.mod_eq_of_lt (by omega)
  omega

/-- The complement mask `!VALID_STATUS_MASK` of the source has its set bits
exactly at the three padding regions plus bits 1–15; a `u64` status ANDs to
zero with it iff those regions of the status are all zero. -/
lemma valid_status_iff (s : Nat) (hs : s < 2 ^ 64) :
    valid_status s = true ↔
      s % 2 ^ 16 < 2 ∧ s / 2 ^ 32 % 2 ^ 8 = 0 ∧ s / 2 ^ 56 = 0 := by
  have hmask : U64_SIZE - 1 - VALID_STATUS_MASK = 18374687574888349694 := by
    unfold U64_SIZE VALID_STATUS_MASK
    norm_num
  unfold valid_status
  rw [hmask, beq_iff_eq]
  set A := s &&& 18374687574888349694 with hA
  -- byte 0/1 piece: bits 1–15 of the status
  have e1 : A % 65536 = 2 * (s % 65536 / 2) := by
    have h := and_mod_two_pow s 18374687574888349694 16
    norm_num at h
    rw [hA, h]
    exact and_fffe _ (Nat.mod_lt _ (by norm_num))
  -- quotient past bit 16: mask becomes 0xFF0000FF0000, bits 16–31 zero
  have e2 : A / 65536 % 65536 = 0 := by
    have h := and_div_two_pow s 18374687574888349694 16
    norm_num at h
    rw [hA, h]
    have h2 := and_mod_two_pow (s / 65536) 280375481794560 16
    norm_num at h2
    rw [h2]
  -- quotient past bit 32: mask becomes 0xFF0000FF
  have e3 : A / 65536 / 65536 = (s / 4294967296) &&& 4278190335 := by
    have h := and_div_two_pow s 18374687574888349694 16
    norm_num at h
    rw [hA, h]
    have h2 := and_div_two_pow (s / 65536) 280375481794560 16
    norm_num at h2
    rw [h2, Nat.div_div_eq_div_mul]
  -- byte 4 piece
  have e4 : ((s / 4294967296) &&& 4278190335) % 256 = s / 4294967296 % 256 := by
    have h := and_mod_two_pow (s / 4294967296) 4278190335 8
    norm_num at h
    rw [h, show (255 : Nat) = 2 ^ 8 - 1 from rfl, Nat.and_pow_two_sub_one_eq_mod]
    omega
  -- quotient past bit 40: mask becomes 0xFF0000, bits 40–55 zero
  have e5 : ((s / 4294967296) &&& 4278190335) / 256 % 65536 = 0 := by
    have h := and_div_two_pow (s / 4294967296) 4278190335 8
    norm_num at h
    rw [h]
    have h2 := and_mod_two_pow (s / 4294967296 / 256) 16711680 16
    norm_num at h2
    rw [h2]
  -- byte 7 piece
  have e6 : ((s / 4294967296) &&& 4278190335) / 256 / 65536 =
      s / 72057594037927936 % 256 := by
    have h := and_div_two_pow (s / 4294967296) 4278190335 8
    norm_num at h
    rw [h]
    have h2 := and_div_two_pow (s / 4294967296 / 256) 16711680 16
    norm_num at h2
    rw [h2, Nat.div_div_eq_div_mul, Nat.div_div_eq_div_mul,
      show (255 : Nat) = 2 ^ 8 - 1 from rfl, Nat.and_pow_two_sub_one_eq_mod]
  rw [← e3] at e4 e5 e6
  omega

/-- A valid `u64` status decomposes into its current-slice bit and the two
use-count fields. -/
lemma valid_status_decompose (s : Nat) (hs : s < 2 ^ 64)
    (h : valid_status s = true) :
    s = s % 2 + 2 ^ 16 * slice_1_use_count s + 2 ^ 40 * slice_2_use_count s := by
  rw [valid_status_iff s hs] at h
  rw [slice_1_use_count_eq, slice_2_use_count_eq]
  omega

/-- Packing a current-slice bit and two in-range use counts yields a valid
status. -/
lemma valid_status_pack (c u1 u2 : Nat) (hc : c < 2) (h1 : u1 < 2 ^ 16)
    (h2 : u2 < 2 ^ 16) :
    valid_status (c + 2 ^ 16 * u1 + 2 ^ 40 * u2) = true := by
  have hs : c + 2 ^ 16 * u1 + 2 ^ 40 * u2 < 2 ^ 64 := by omega
  rw [valid_status_iff _ hs]
  refine ⟨by omega, ?_, by omega⟩
  omega

/-! ### Helper lemmas about the operations -/

lemma INC_ALL_SLICES_eq : INC_ALL_SLICES = 65536 + 1099511627776 := by decide

lemma U64_SIZE_eq : U64_SIZE = 18446744073709551616 := by norm_num [U64_SIZE]

/-- When the length matches, the gate is free and the inactive slice has
drained, `write` succeeds and its post-state is explicit. -/
lemma write_ok {α : Type} (s : AtomicSlice α) (xs : List α)
    (hlen : xs.length = s.stride) (hgate : s.currently_writing = false)
    (hdrain : slice_use_count ((s.status &&& CURRENT_SLICE_MASK) ^^^ 1)
      s.status = some 0) :
    s.write xs = WriteResult.ok (write_post s xs) := by
  unfold AtomicSlice.write write_post
  rw [if_neg (by simp [hlen]), if_neg (by simp [hgate]), if_neg (by simp [hdrain])]

/-- Inversion: a successful `write` forces all of its side conditions and
determines the post-state. -/
lemma write_ok_inv {α : Type} (s : AtomicSlice α) (xs : List α)
    (s' : AtomicSlice α) (hw : s.write xs = WriteResult.ok s') :
    xs.length = s.stride ∧ s.currently_writing = false ∧
    slice_use_count ((s.status &&& CURRENT_SLICE_MASK) ^^^ 1) s.status = some 0 ∧
    s' = write_post s xs := by
  unfold AtomicSlice.write at hw
  unfold write_post
  by_cases hlen : xs.length = s.stride
  · by_cases hgate : s.currently_writing
    · rw [if_neg (by simp [hlen]), if_pos hgate] at hw
      exact absurd hw (by simp)
    · by_cases hdrain : slice_use_count ((s.status &&& CURRENT_SLICE_MASK) ^^^ 1)
        s.status = some 0
      · rw [if_neg (by simp [hlen]), if_neg (by simp [hgate]),
          if_neg (by simp [hdrain])] at hw
        simp only [WriteResult.ok.injEq] at hw
        exact ⟨hlen, by simpa using hgate, hdrain, hw.symm⟩
      · rw [if_neg (by simp [hlen]), if_neg (by simp [hgate]),
          if_pos (by simp [hdrain])] at hw
        exact absurd hw (by simp)
  · rw [if_pos (by simp [hlen])] at hw
    exact absurd hw (by simp)

/-- The guard returned by `read`, explicitly. -/
lemma read_fst {α : Type} (s : AtomicSlice α) :
    (s.read).1 = ⟨s.generation (s.status &&& CURRENT_SLICE_MASK),
      s.status &&& CURRENT_SLICE_MASK⟩ := rfl

/-- The post-state of `read`, explicitly. -/
lemma read_snd_status {α : Type} (s : AtomicSlice α) :
    ((s.read).2).status =
      (read_acquire_status s.status +
        (U64_SIZE - (if s.status &&& CURRENT_SLICE_MASK = 0 then SLICE_2_INC
          else SLICE_1_INC))) % U64_SIZE := rfl

lemma read_snd_rest {α : Type} (s : AtomicSlice α) :
    ((s.read).2).data = s.data ∧ ((s.read).2).stride = s.stride ∧
    ((s.read).2).currently_writing = s.currently_writing := ⟨rfl, rfl, rfl⟩

/-- The borrowed view handed out by `read` has exactly `stride` elements
whenever the pool has its construction shape. -/
lemma read_slice_length {α : Type} (s : AtomicSlice α)
    (hpool : s.data.length = 2 * s.stride) :
    ((s.read).1).slice.length = s.len := by
  show (s.generation (s.status &&& CURRENT_SLICE_MASK)).length = s.len
  unfold AtomicSlice.generation AtomicSlice.len
  rw [and_current_slice_mask]
  rcases Nat.mod_two_eq_zero_or_one s.status with hc | hc <;>
    rw [hc] <;> simp [hpool] <;> omega

/-- The inactive slice index computed by `write` (`next_i = i ^ 1`) in
arithmetic form. -/
lemma next_i_eq (st : Nat) : (st &&& CURRENT_SLICE_MASK) ^^^ 1 = 1 - st % 2 := by
  rw [and_current_slice_mask]
  rcases Nat.mod_two_eq_zero_or_one st with hc | hc <;> rw [hc] <;> decide

/-- The published status `status ^ 1` stays below `2^64` and flips only the
lowest bit. -/
lemma status_xor_one_mod (st : Nat) (hst : st < U64_SIZE) :
    (st ^^^ 1) % U64_SIZE = 2 * (st / 2) + (1 - st % 2) := by
  rw [xor_one_eq]
  apply Nat.mod_eq_of_lt
  have h64 := U64_SIZE_eq
  omega

/-- After a successful write, the previously inactive generation holds
exactly the written data. -/
lemma write_post_generation_new {α : Type} (s : AtomicSlice α) (X : List α)
    (hlen : X.length = s.stride) (hpool : s.data.length = 2 * s.stride) :
    (write_post s X).generation ((s.status &&& CURRENT_SLICE_MASK) ^^^ 1) = X := by
  unfold AtomicSlice.generation
  simp only [write_post, next_i_eq]
  rcases Nat.mod_two_eq_zero_or_one s.status with hc | hc <;> rw [hc]
  · -- current slice was 0; the write landed in generation 1
    norm_num
    have htake : (s.data.take s.stride).length = s.stride := by
      rw [List.length_take]
      omega
    rw [List.drop_left' htake,
      List.drop_eq_nil_of_le (show s.data.length ≤ s.stride + s.stride by omega),
      List.append_nil, ← hlen, List.take_length]
  · -- current slice was 1; the write landed in generation 0
    norm_num
    rw [List.take_left' hlen]

/-- The published status decodes to the flipped current-slice bit. -/
lemma write_post_current_bit {α : Type} (s : AtomicSlice α) (X : List α)
    (hs : s.status < U64_SIZE) :
    (write_post s X).status &&& CURRENT_SLICE_MASK
      = (s.status &&& CURRENT_SLICE_MASK) ^^^ 1 := by
  rw [and_current_slice_mask, next_i_eq]
  simp only [write_post]
  rw [status_xor_one_mod s.status hs]
  omega

/-- The combined net effect of the two atomic operations of `read` on a
valid status word: exactly the current slice's increment is added. -/
lemma read_status_net {α : Type} (s : AtomicSlice α)
    (hvalid : valid_status s.status = true) (hs : s.status < U64_SIZE)
    (h1 : slice_1_use_count s.status < 0xFFFF)
    (h2 : slice_2_use_count s.status < 0xFFFF) :
    ((s.read).2).status
      = s.status + (if s.status % 2 = 0 then SLICE_1_INC else SLICE_2_INC) := by
  have hd := valid_status_decompose s.status hs hvalid
  rw [slice_1_use_count_eq] at h1
  rw [slice_2_use_count_eq] at h2
  rw [slice_1_use_count_eq, slice_2_use_count_eq] at hd
  rw [read_snd_status, and_current_slice_mask]
  unfold read_acquire_status
  rw [INC_ALL_SLICES_eq, U64_SIZE_eq]
  rcases Nat.mod_two_eq_zero_or_one s.status with hc | hc <;>
    rw [hc] <;> norm_num [SLICE_1_INC, SLICE_2_INC] <;> omega

/-- Adding the current slice's increment to a valid status with in-range
use counts keeps it valid. -/
lemma valid_after_read (st : Nat) (hvalid : valid_status st = true)
    (hst : st < U64_SIZE)
    (h1 : slice_1_use_count st < 0xFFFF) (h2 : slice_2_use_count st < 0xFFFF) :
    valid_status (st + (if st % 2 = 0 then SLICE_1_INC else SLICE_2_INC))
      = true := by
  have hd := valid_status_decompose st hst hvalid
  rw [slice_1_use_count_eq] at h1
  rw [slice_2_use_count_eq] at h2
  rw [slice_1_use_count_eq, slice_2_use_count_eq] at hd
  rcases Nat.mod_two_eq_zero_or_one st with hc | hc <;>
    rw [hc] <;> norm_num [SLICE_1_INC, SLICE_2_INC]
  · rw [show st + 65536
        = 0 + 2 ^ 16 * (st / 2 ^ 16 % 2 ^ 16 + 1) + 2 ^ 40 * (st / 2 ^ 40 % 2 ^ 16)
      by omega]
    exact valid_status_pack _ _ _ (by norm_num) (by omega) (by omega)
  · rw [show st + 1099511627776
        = 1 + 2 ^ 16 * (st / 2 ^ 16 % 2 ^ 16) + 2 ^ 40 * (st / 2 ^ 40 % 2 ^ 16 + 1)
      by omega]
    exact valid_status_pack _ _ _ (by norm_num) (by omega) (by omega)

/-- Subtracting (wrapping) the increment of a slice whose use count is
positive from a valid status keeps it valid. -/
lemma valid_after_release (st : Nat) (hvalid : valid_status st = true)
    (hst : st < U64_SIZE) (cs : Nat)
    (hcs0 : cs = 0 → 0 < slice_1_use_count st)
    (hcs1 : cs ≠ 0 → 0 < slice_2_use_count st) :
    valid_status ((st + (U64_SIZE - if cs = 0 then SLICE_1_INC else SLICE_2_INC))
      % U64_SIZE) = true := by
  have hd := valid_status_decompose st hst hvalid
  rw [slice_1_use_count_eq, slice_2_use_count_eq] at hd
  by_cases hcs : cs = 0
  · have hpos := hcs0 hcs
    rw [slice_1_use_count_eq] at hpos
    rw [if_pos hcs, U64_SIZE_eq]
    norm_num [SLICE_1_INC]
    rw [show (st + 18446744073709486080) % 18446744073709551616
        = st % 2 + 2 ^ 16 * (st / 2 ^ 16 % 2 ^ 16 - 1) + 2 ^ 40 * (st / 2 ^ 40 % 2 ^ 16)
      by omega]
    exact valid_status_pack _ _ _ (by omega) (by omega) (by omega)
  · have hpos := hcs1 hcs
    rw [slice_2_use_count_eq] at hpos
    rw [if_neg hcs, U64_SIZE_eq]
    norm_num [SLICE_2_INC]
    rw [show (st + 18446742974197923840) % 18446744073709551616
        = st % 2 + 2 ^ 16 * (st / 2 ^ 16 % 2 ^ 16) + 2 ^ 40 * (st / 2 ^ 40 % 2 ^ 16 - 1)
      by omega]
    exact valid_status_pack _ _ _ (by omega) (by omega) (by omega)

/-- Publishing (`status ^ 1`) keeps a valid status valid. -/
lemma valid_after_publish (st : Nat) (hvalid : valid_status st = true)
    (hst : st < U64_SIZE) :
    valid_status ((st ^^^ 1) % U64_SIZE) = true := by
  have hd := valid_status_decompose st hst hvalid
  rw [slice_1_use_count_eq, slice_2_use_count_eq] at hd
  rw [status_xor_one_mod st hst]
  rw [show 2 * (st / 2) + (1 - st % 2)
      = (1 - st % 2) + 2 ^ 16 * (st / 2 ^ 16 % 2 ^ 16) + 2 ^ 40 * (st / 2 ^ 40 % 2 ^ 16)
    by omega]
  exact valid_status_pack _ _ _ (by omega) (by omega) (by omega)

/-! ### Claim theorems -/

/-- Claim C7: construction from a sequence of exactly N elements has no
fallible paths and produces a handle owning a 2N-element pool whose
generation 0 equals the input and whose generation 1 is default-filled, with
the status word equal to zero (generation 0 current, both use-counts zero)
and the write gate unlocked; `len()` on the result returns N. -/
theorem C7_construction {α : Type} [Inhabited α] (xs : List α) :
    (AtomicSlice.new xs).len = xs.length ∧
    ((AtomicSlice.new xs).data).length = 2 * xs.length ∧
    (AtomicSlice.new xs).generation 0 = xs ∧
    (AtomicSlice.new xs).generation 1 = List.replicate xs.length default ∧
    (AtomicSlice.new xs).status = 0 ∧
    (AtomicSlice.new xs).status &&& CURRENT_SLICE_MASK = 0 ∧
    slice_1_use_count (AtomicSlice.new (α := α) xs).status = 0 ∧
    slice_2_use_count (AtomicSlice.new (α := α) xs).status = 0 ∧
    valid_status (AtomicSlice.new (α := α) xs).status = true ∧
    (AtomicSlice.new xs).currently_writing = false := by
  refine ⟨rfl, ?_, ?_, ?_, rfl,
    show (0 : Nat) &&& CURRENT_SLICE_MASK = 0 by decide,
    show slice_1_use_count 0 = 0 by decide,
    show slice_2_use_count 0 = 0 by decide,
    show valid_status 0 = true by decide, rfl⟩
  · show (xs ++ List.replicate xs.length default).length = 2 * xs.length
    simp
    omega
  · show ((xs ++ List.replicate xs.length default).drop (0 * xs.length)).take
      xs.length = xs
    rw [Nat.zero_mul, List.drop_zero, List.take_left]
  · show ((xs ++ List.replicate xs.length default).drop (1 * xs.length)).take
      xs.length = List.replicate xs.length default
    rw [Nat.one_mul, List.drop_left, List.take_replicate, Nat.min_self]

/-- Claim C3: for every state of the structure, `read` never blocks and never
fails (it is a total straight-line function), and returns a lease over
exactly N elements of whichever generation is current at the moment of the
call — the generation decoded from the current-generation bit of the
pre-increment status snapshot. -/
theorem C3_read_current_generation {α : Type} (s : AtomicSlice α)
    (hpool : s.data.length = 2 * s.stride) :
    ((s.read).1).current_slice = s.status &&& CURRENT_SLICE_MASK ∧
    ((s.read).1).slice = s.generation (s.status &&& CURRENT_SLICE_MASK) ∧
    ((s.read).1).slice.length = s.len := by
  exact ⟨rfl, rfl, read_slice_length s hpool⟩

/-- Witness for C3 at the concrete instance `sEx`. -/
theorem C3_witness :
    sEx.data.length = 2 * sEx.stride ∧
    (((sEx.read).1).current_slice = sEx.status &&& CURRENT_SLICE_MASK ∧
      ((sEx.read).1).slice = sEx.generation (sEx.status &&& CURRENT_SLICE_MASK) ∧
      ((sEx.read).1).slice.length = sEx.len) :=
  ⟨by decide, C3_read_current_generation sEx (by decide)⟩

/-- Claim C6: if `write` is invoked with data whose length differs from N,
the call fails immediately as a fatal error for that call only (`panic!`
before any mutation), no mutation of the pool or the status word occurs
(the panic branch produces no post-state, leaving `s` as it was), and the
structure remains valid and usable: a subsequent `read` on `s` still yields
N elements and a subsequent well-formed `write` on `s` still succeeds. -/
theorem C6_write_length_mismatch {α : Type} (s : AtomicSlice α) (xs : List α)
    (h : xs.length ≠ s.stride) :
    s.write xs = WriteResult.lengthPanic ∧
    (s.data.length = 2 * s.stride → ((s.read).1).slice.length = s.len) ∧
    (∀ ys : List α, ys.length = s.stride → s.currently_writing = false →
      slice_use_count ((s.status &&& CURRENT_SLICE_MASK) ^^^ 1) s.status
        = some 0 →
      s.write ys = WriteResult.ok (write_post s ys)) := by
  refine ⟨?_, fun hpool => read_slice_length s hpool,
    fun ys hlen hgate hdrain => write_ok s ys hlen hgate hdrain⟩
  unfold AtomicSlice.write
  rw [if_pos (by simp [h])]

/-- Witness for C6: writing a 1-element slice to the 2-element `sEx`. -/
theorem C6_witness :
    ([1] : List Nat).length ≠ sEx.stride ∧
    (sEx.write [1] = WriteResult.lengthPanic ∧
      (sEx.data.length = 2 * sEx.stride → ((sEx.read).1).slice.length = sEx.len) ∧
      (∀ ys : List Nat, ys.length = sEx.stride → sEx.currently_writing = false →
        slice_use_count ((sEx.status &&& CURRENT_SLICE_MASK) ^^^ 1) sEx.status
          = some 0 →
        sEx.write ys = WriteResult.ok (write_post sEx ys))) :=
  ⟨by decide, C6_write_length_mismatch sEx [1] (by decide)⟩

/-- Claim C2: for every slice X of length N, `write(X)` immediately followed
by `read()` with no intervening write yields a lease whose N elements equal
X exactly. (The `write` succeeds under the quiescent-state side conditions
of its protocol: matching length, free gate, drained inactive slice.) -/
theorem C2_write_read_roundtrip {α : Type} (s : AtomicSlice α) (X : List α)
    (hlen : X.length = s.stride) (hpool : s.data.length = 2 * s.stride)
    (hgate : s.currently_writing = false)
    (hdrain : slice_use_count ((s.status &&& CURRENT_SLICE_MASK) ^^^ 1)
      s.status = some 0)
    (hs : s.status < U64_SIZE) :
    s.write X = WriteResult.ok (write_post s X) ∧
    (((write_post s X).read).1).slice = X := by
  refine ⟨write_ok s X hlen hgate hdrain, ?_⟩
  show (write_post s X).generation
    ((write_post s X).status &&& CURRENT_SLICE_MASK) = X
  rw [write_post_current_bit s X hs, write_post_generation_new s X hlen hpool]

/-- Witness for C2: writing `[7, 8]` to the freshly built `sEx` and reading
it back. -/
theorem C2_witness :
    ([7, 8] : List Nat).length = sEx.stride ∧
    sEx.data.length = 2 * sEx.stride ∧
    sEx.currently_writing = false ∧
    slice_use_count ((sEx.status &&& CURRENT_SLICE_MASK) ^^^ 1) sEx.status
      = some 0 ∧
    sEx.status < U64_SIZE ∧
    (sEx.write [7, 8] = WriteResult.ok (write_post sEx [7, 8]) ∧
      (((write_post sEx [7, 8]).read).1).slice = [7, 8]) :=
  ⟨by decide, by decide, by decide, by decide, by decide,
    C2_write_read_roundtrip sEx [7, 8] (by decide) (by decide) (by decide)
      (by decide) (by decide)⟩

/-- Claim C5: a successful write only copies the new elements into the
inactive generation (the complement of the current-generation bit); the
elements of the currently-current generation are never mutated, and the
publication step changes only the current-generation bit of the status word,
leaving both use-count fields unchanged. -/
theorem C5_write_frame {α : Type} (s : AtomicSlice α) (X : List α)
    (hlen : X.length = s.stride) (hpool : s.data.length = 2 * s.stride)
    (hgate : s.currently_writing = false)
    (hdrain : slice_use_count ((s.status &&& CURRENT_SLICE_MASK) ^^^ 1)
      s.status = some 0)
    (hs : s.status < U64_SIZE) :
    s.write X = WriteResult.ok (write_post s X) ∧
    (write_post s X).generation (s.status &&& CURRENT_SLICE_MASK)
      = s.generation (s.status &&& CURRENT_SLICE_MASK) ∧
    (write_post s X).generation ((s.status &&& CURRENT_SLICE_MASK) ^^^ 1) = X ∧
    (write_post s X).status &&& CURRENT_SLICE_MASK
      = (s.status &&& CURRENT_SLICE_MASK) ^^^ 1 ∧
    slice_1_use_count ((write_post s X).status) = slice_1_use_count s.status ∧
    slice_2_use_count ((write_post s X).status) = slice_2_use_count s.status := by
  refine ⟨write_ok s X hlen hgate hdrain, ?_,
    write_post_generation_new s X hlen hpool, write_post_current_bit s X hs,
    ?_, ?_⟩
  · unfold AtomicSlice.generation
    simp only [write_post, next_i_eq, and_current_slice_mask]
    rcases Nat.mod_two_eq_zero_or_one s.status with hc | hc <;>
      rw [hc] <;> norm_num
    · have htake : (s.data.take s.stride).length = s.stride := by
        rw [List.length_take]
        omega
      rw [List.take_left' htake]
    · rw [List.drop_left' hlen]
  · simp only [write_post]
    rw [status_xor_one_mod s.status hs, slice_1_use_count_eq,
      slice_1_use_count_eq]
    omega
  · simp only [write_post]
    rw [status_xor_one_mod s.status hs, slice_2_use_count_eq,
      slice_2_use_count_eq]
    omega

/-- Witness for C5 at `sEx` with data `[7, 8]`. -/
theorem C5_witness :
    ([7, 8] : List Nat).length = sEx.stride ∧
    sEx.data.length = 2 * sEx.stride ∧
    sEx.currently_writing = false ∧
    slice_use_count ((sEx.status &&& CURRENT_SLICE_MASK) ^^^ 1) sEx.status
      = some 0 ∧
    sEx.status < U64_SIZE ∧
    ((write_post sEx [7, 8]).generation (sEx.status &&& CURRENT_SLICE_MASK)
      = sEx.generation (sEx.status &&& CURRENT_SLICE_MASK) ∧
      (write_post sEx [7, 8]).generation
        ((sEx.status &&& CURRENT_SLICE_MASK) ^^^ 1) = [7, 8] ∧
      slice_1_use_count ((write_post sEx [7, 8]).status)
        = slice_1_use_count sEx.status ∧
      slice_2_use_count ((write_post sEx [7, 8]).status)
        = slice_2_use_count sEx.status) := by
  have h := C5_write_frame sEx [7, 8] (by decide) (by decide) (by decide)
    (by decide) (by decide)
  exact ⟨by decide, by decide, by decide, by decide, by decide,
    h.2.1, h.2.2.1, h.2.2.2.2.1, h.2.2.2.2.2⟩

/-- Claim C4: a read acquisition increments both generations' use-counts in
a single atomic read-modify-write that also yields the pre-increment
snapshot, then decrements only the non-current generation's use-count, so
its net effect on the status word is exactly +1 on the current generation's
use-count, with the selector bit and the other use-count unchanged; the
lease's release decrements exactly that generation's use-count once, so an
acquire/release pair restores the status word. -/
theorem C4_read_acquire_release {α : Type} (s : AtomicSlice α)
    (hvalid : valid_status s.status = true) (hs : s.status < U64_SIZE)
    (h1 : slice_1_use_count s.status < 0xFFFF)
    (h2 : slice_2_use_count s.status < 0xFFFF) :
    ((s.read).2).status &&& CURRENT_SLICE_MASK
      = s.status &&& CURRENT_SLICE_MASK ∧
    slice_use_count (((s.read).1).current_slice) (((s.read).2).status)
      = Option.map (fun n => n + 1)
          (slice_use_count (((s.read).1).current_slice) s.status) ∧
    slice_use_count (((s.read).1).current_slice ^^^ 1) (((s.read).2).status)
      = slice_use_count (((s.read).1).current_slice ^^^ 1) s.status ∧
    ((((s.read).1).drop ((s.read).2))).status = s.status := by
  have hd := valid_status_decompose s.status hs hvalid
  rw [slice_1_use_count_eq] at h1
  rw [slice_2_use_count_eq] at h2
  rw [slice_1_use_count_eq, slice_2_use_count_eq] at hd
  have hs64 : s.status < 18446744073709551616 := by
    rw [U64_SIZE_eq] at hs
    exact hs
  -- net effect of the two atomic operations of `read` on the status word
  have hnet : ((s.read).2).status
      = s.status + (if s.status % 2 = 0 then SLICE_1_INC else SLICE_2_INC) := by
    rw [read_snd_status, and_current_slice_mask]
    unfold read_acquire_status
    rw [INC_ALL_SLICES_eq, U64_SIZE_eq]
    rcases Nat.mod_two_eq_zero_or_one s.status with hc | hc <;>
      rw [hc] <;> norm_num [SLICE_1_INC, SLICE_2_INC] <;> omega
  have hcur : ((s.read).1).current_slice = s.status % 2 := by
    rw [read_fst, and_current_slice_mask]
  refine ⟨?_, ?_, ?_, ?_⟩
  · rw [hnet, and_current_slice_mask, and_current_slice_mask]
    rcases Nat.mod_two_eq_zero_or_one s.status with hc | hc <;>
      rw [hc] <;> norm_num [SLICE_1_INC, SLICE_2_INC] <;> omega
  · rw [hnet, hcur]
    rcases Nat.mod_two_eq_zero_or_one s.status with hc | hc <;> rw [hc] <;>
      simp only [if_pos rfl, slice_use_count, Option.map,
        reduceIte, slice_1_use_count_eq, slice_2_use_count_eq] <;>
      norm_num [SLICE_1_INC, SLICE_2_INC] <;> omega
  · rw [hnet, hcur]
    rcases Nat.mod_two_eq_zero_or_one s.status with hc | hc <;> rw [hc] <;>
      norm_num <;>
      simp only [slice_use_count, slice_1_use_count_eq, slice_2_use_count_eq,
        Option.some.injEq] <;>
      norm_num [SLICE_1_INC, SLICE_2_INC] <;> omega
  · show ((((s.read).2)).status +
      (U64_SIZE - (if ((s.read).1).current_slice = 0 then SLICE_1_INC
        else SLICE_2_INC))) % U64_SIZE = s.status
    rw [hnet, hcur, U64_SIZE_eq]
    rcases Nat.mod_two_eq_zero_or_one s.status with hc | hc <;>
      rw [hc] <;> norm_num [SLICE_1_INC, SLICE_2_INC] <;> omega

/-- Witness for C4 at the freshly constructed `sEx`. -/
theorem C4_witness :
    valid_status sEx.status = true ∧ sEx.status < U64_SIZE ∧
    slice_1_use_count sEx.status < 0xFFFF ∧
    slice_2_use_count sEx.status < 0xFFFF ∧
    (((sEx.read).2).status &&& CURRENT_SLICE_MASK
        = sEx.status &&& CURRENT_SLICE_MASK ∧
      slice_use_count (((sEx.read).1).current_slice) (((sEx.read).2).status)
        = Option.map (fun n => n + 1)
            (slice_use_count (((sEx.read).1).current_slice) sEx.status) ∧
      slice_use_count (((sEx.read).1).current_slice ^^^ 1)
          (((sEx.read).2).status)
        = slice_use_count (((sEx.read).1).current_slice ^^^ 1) sEx.status ∧
      ((((sEx.read).1).drop ((sEx.read).2))).status = sEx.status) :=
  ⟨by decide, by decide, by decide, by decide,
    C4_read_acquire_release sEx (by decide) (by decide) (by decide) (by decide)⟩

/-- Claim C8: status-word validity is an invariant: the initial status zero
is valid, and — provided each generation's use count stays below its 16-bit
bound — read acquisition, lease release and (successful) write each
preserve the predicate that no bits outside the three defined fields are
set. -/
theorem C8_status_validity_invariant {α : Type} (s : AtomicSlice α)
    (g : AtomicSliceReadGuard α) (X : List α) (s' : AtomicSlice α) :
    valid_status 0 = true ∧
    (valid_status s.status = true → s.status < U64_SIZE →
      slice_1_use_count s.status < 0xFFFF →
      slice_2_use_count s.status < 0xFFFF →
      valid_status (((s.read).2).status) = true) ∧
    (valid_status s.status = true → s.status < U64_SIZE →
      (g.current_slice = 0 → 0 < slice_1_use_count s.status) →
      (g.current_slice ≠ 0 → 0 < slice_2_use_count s.status) →
      valid_status ((g.drop s).status) = true) ∧
    (valid_status s.status = true → s.status < U64_SIZE →
      s.write X = WriteResult.ok s' → valid_status s'.status = true) := by
  refine ⟨by decide, ?_, ?_, ?_⟩
  · intro hvalid hs h1 h2
    rw [read_status_net s hvalid hs h1 h2]
    exact valid_after_read s.status hvalid hs h1 h2
  · intro hvalid hs hcs0 hcs1
    show valid_status ((s.status +
      (U64_SIZE - if g.current_slice = 0 then SLICE_1_INC else SLICE_2_INC))
        % U64_SIZE) = true
    exact valid_after_release s.status hvalid hs g.current_slice hcs0 hcs1
  · intro hvalid hs hw
    obtain ⟨-, -, -, hpost⟩ := write_ok_inv s X s' hw
    rw [hpost]
    show valid_status ((s.status ^^^ 1) % U64_SIZE) = true
    exact valid_after_publish s.status hvalid hs

/-- Witness for C8 at the one-outstanding-lease state `sExRead`, with the
lease guard from the `read` on `sEx` and the write data `[7, 8]`. -/
theorem C8_witness :
    valid_status sExRead.status = true ∧ sExRead.status < U64_SIZE ∧
    slice_1_use_count sExRead.status < 0xFFFF ∧
    slice_2_use_count sExRead.status < 0xFFFF ∧
    (((sEx.read).1).current_slice = 0 → 0 < slice_1_use_count sExRead.status) ∧
    sExRead.write [7, 8] = WriteResult.ok (write_post sExRead [7, 8]) ∧
    (valid_status (((sExRead.read).2).status) = true ∧
      valid_status ((((sEx.read).1).drop sExRead).status) = true ∧
      valid_status ((write_post sExRead [7, 8]).status) = true) := by
  have h := C8_status_validity_invariant sExRead ((sEx.read).1) [7, 8]
    (write_post sExRead [7, 8])
  refine ⟨by decide, by decide, by decide, by decide, by decide,
    write_ok sExRead [7, 8] (by decide) (by decide) (by decide), ?_, ?_, ?_⟩
  · exact h.2.1 (by decide) (by decide) (by decide) (by decide)
  · exact h.2.2.1 (by decide) (by decide) (by decide) (by decide)
  · exact h.2.2.2 (by decide) (by decide)
      (write_ok sExRead [7, 8] (by decide) (by decide) (by decide))

/-- Claim C9: use-count overflow is unguarded: if a generation's 16-bit
use-count field holds 0xFFFF when a read acquisition performs its combined
increment (`fetch_add(INC_ALL_SLICES)`), the addition carries into the
adjacent padding byte of the 64-bit status word (byte 4 for slice 1,
byte 7 for slice 2), producing a status that violates the validity mask.
(The source checks the bound only via `debug_assert!`, absent in release
builds.) -/
theorem C9_use_count_overflow (st : Nat) (hvalid : valid_status st = true)
    (hst : st < U64_SIZE)
    (hfull : slice_1_use_count st = 0xFFFF ∨ slice_2_use_count st = 0xFFFF) :
    valid_status (read_acquire_status st) = false ∧
    (slice_1_use_count st = 0xFFFF →
      read_acquire_status st / 2 ^ 32 % 2 ^ 8 ≠ 0) ∧
    (slice_2_use_count st = 0xFFFF → read_acquire_status st / 2 ^ 56 ≠ 0) := by
  have hd := valid_status_decompose st hst hvalid
  rw [slice_1_use_count_eq, slice_2_use_count_eq] at hd hfull ⊢
  unfold read_acquire_status
  rw [INC_ALL_SLICES_eq, U64_SIZE_eq]
  have hlt : st + (65536 + 1099511627776) < 18446744073709551616 := by omega
  rw [Nat.mod_eq_of_lt hlt]
  refine ⟨?_, fun h1 => by omega, fun h2 => by omega⟩
  rw [Bool.eq_false_iff]
  intro hcon
  rw [valid_status_iff _ (by omega)] at hcon
  omega

/-- Witness for C9 at the status with slice 1's use count at 0xFFFF. -/
theorem C9_witness :
    valid_status 4294901760 = true ∧ (4294901760 : Nat) < U64_SIZE ∧
    (slice_1_use_count 4294901760 = 0xFFFF ∨
      slice_2_use_count 4294901760 = 0xFFFF) ∧
    (valid_status (read_acquire_status 4294901760) = false ∧
      (slice_1_use_count 4294901760 = 0xFFFF →
        read_acquire_status 4294901760 / 2 ^ 32 % 2 ^ 8 ≠ 0) ∧
      (slice_2_use_count 4294901760 = 0xFFFF →
        read_acquire_status 4294901760 / 2 ^ 56 ≠ 0)) :=
  ⟨by decide, by decide, by decide,
    C9_use_count_overflow 4294901760 (by decide) (by decide) (by decide)⟩

/-- Claim C10: the zero-length edge case is accepted at the public
interface: construction from an empty sequence succeeds, `len()` returns 0,
`read()` returns a lease over an empty view, and `write` of an empty slice
succeeds, with all operations preserving the status-word protocol (validity
holds after each operation, and a lease release restores the status). -/
theorem C10_zero_length :
    sEmpty.len = 0 ∧
    sEmpty.data.length = 0 ∧
    ((sEmpty.read).1).slice = [] ∧
    valid_status (((sEmpty.read).2).status) = true ∧
    ((((sEmpty.read).1).drop ((sEmpty.read).2)).status) = sEmpty.status ∧
    sEmpty.write [] = WriteResult.ok (write_post sEmpty []) ∧
    (write_post sEmpty []).len = 0 ∧
    valid_status ((write_post sEmpty []).status) = true ∧
    (((write_post sEmpty []).read).1).slice = [] := by
  refine ⟨rfl, rfl, rfl, by decide, by decide,
    write_ok sEmpty [] (by decide) (by decide) (by decide), rfl, by decide, ?_⟩
  decide

end AtomicsliceSpec
